import Mathlib

/-!
Shallow embedding of `src/mm_backup.c`, an implicit-free-list memory
allocator with boundary tags, first-fit placement and neighbour coalescing.

Modelling conventions:
* The machine is 32-bit (`WSIZE = 4`, headers are one `size_t` word).
  `size_t` values are `Nat` reduced `% 2^32` wherever C arithmetic can wrap.
* Memory is byte-addressed: `Heap.mem : Nat → Nat` holds one byte (< 256)
  per address; unwritten memory reads as 0.  A word access reads/writes four
  consecutive bytes, little-endian, exactly like `GET`/`PUT` in the source.
* `mem_sbrk` is the external growth primitive: it either hands out the next
  `n` bytes (returning the old break) or fails when the configured `limit`
  would be exceeded.  The first break is 8 so that no block pointer is the
  null pointer and payloads stay 8-byte aligned.
* Loops become fuel-indexed recursion; the fuel is always large enough that
  it is never exhausted on the heaps the loops are run on.
-/

set_option maxRecDepth 100000

namespace MallocLab

/-- PACK from the source: `(size) | ((alloc) & 0x1)`. -/
def PACK (size alloc : Nat) : Nat := size ||| (alloc &&& 0x1)

/-- size field of a header word, `GET_SIZE`'s bit operation: `w & ~0x7`
(the complement of 0x7 in a 32-bit `size_t` is 0xFFFFFFF8). -/
def size_of (w : Nat) : Nat := w &&& 0xFFFFFFF8

/-- allocated field of a header word, `GET_ALLOC`'s bit operation: `w & 0x1`. -/
def allocated_of (w : Nat) : Nat := w &&& 0x1

/-- Heap state: byte-addressed memory, the current break, the capacity of the
growth primitive, and the global `heap_listp`. -/
structure Heap where
  mem : Nat → Nat
  brk : Nat
  limit : Nat
  heap_listp : Nat

instance : Inhabited Heap := ⟨⟨fun _ => 0, 0, 0, 0⟩⟩

/-- Store one byte. -/
def putB (h : Heap) (a v : Nat) : Heap :=
  { h with mem := fun x => if x = a then v % 256 else h.mem x }

/-- PUT from the source: store a `size_t` word as four bytes, little-endian. -/
def PUT (h : Heap) (p v : Nat) : Heap :=
  putB (putB (putB (putB h p v) (p + 1) (v / 2 ^ 8)) (p + 2) (v / 2 ^ 16)) (p + 3) (v / 2 ^ 24)

/-- GET from the source: read a `size_t` word from four bytes, little-endian. -/
def GET (h : Heap) (p : Nat) : Nat :=
  h.mem p + 2 ^ 8 * h.mem (p + 1) + 2 ^ 16 * h.mem (p + 2) + 2 ^ 24 * h.mem (p + 3)

/-- GET_SIZE from the source: `GET(p) & ~0x7`. -/
def GET_SIZE (h : Heap) (p : Nat) : Nat := size_of (GET h p)

/-- GET_ALLOC from the source: `GET(p) & 0x1`. -/
def GET_ALLOC (h : Heap) (p : Nat) : Nat := allocated_of (GET h p)

/-- HDRP from the source: `bp - WSIZE`. -/
def HDRP (bp : Nat) : Nat := bp - 4

/-- FTRP from the source: `bp + GET_SIZE(HDRP(bp)) - DSIZE`. -/
def FTRP (h : Heap) (bp : Nat) : Nat := bp + GET_SIZE h (HDRP bp) - 8

/-- NEXT_BLKP from the source: `bp + GET_SIZE(bp - WSIZE)`. -/
def NEXT_BLKP (h : Heap) (bp : Nat) : Nat := bp + GET_SIZE h (bp - 4)

/-- PREV_BLKP from the source: `bp - GET_SIZE(bp - DSIZE)`. -/
def PREV_BLKP (h : Heap) (bp : Nat) : Nat := bp - GET_SIZE h (bp - 8)

/-- The external heap-growth primitive `mem_sbrk`: returns the old break and
advances it, or fails (the C code's NULL / `(void *)-1` result) when the
capacity `limit` would be exceeded.  Failure leaves the heap untouched. -/
def mem_sbrk (h : Heap) (n : Nat) : Option Nat × Heap :=
  if h.brk + n ≤ h.limit then (some h.brk, { h with brk := h.brk + n }) else (none, h)

/-- coalesce from the source, write-for-write and read-for-read in program
order.  The fourth case models the source's line 228 verbatim: the statement
`size =+ GET_SIZE(HDRP(PREV_BLKP(bp))) + GET_SIZE(FTRP(NEXT_BLKP(bp)));`
parses as `size = (+prev) + next`, so the block's own size is dropped from
the sum. -/
def coalesce (h : Heap) (bp : Nat) : Nat × Heap :=
  let prev_alloc := GET_ALLOC h (FTRP h (PREV_BLKP h bp))
  let next_alloc := GET_ALLOC h (HDRP (NEXT_BLKP h bp))
  let size := GET_SIZE h (HDRP bp)
  if prev_alloc ≠ 0 ∧ next_alloc ≠ 0 then
    (bp, h)
  else if prev_alloc ≠ 0 ∧ next_alloc = 0 then
    let size2 := (size + GET_SIZE h (HDRP (NEXT_BLKP h bp))) % 2 ^ 32
    let h1 := PUT h (HDRP bp) (PACK size2 0)
    let h2 := PUT h1 (FTRP h1 bp) (PACK size2 0)
    (bp, h2)
  else if prev_alloc = 0 ∧ next_alloc ≠ 0 then
    let size2 := (size + GET_SIZE h (HDRP (PREV_BLKP h bp))) % 2 ^ 32
    let h1 := PUT h (FTRP h bp) (PACK size2 0)
    let h2 := PUT h1 (HDRP (PREV_BLKP h1 bp)) (PACK size2 0)
    (PREV_BLKP h2 bp, h2)
  else
    let size2 := (GET_SIZE h (HDRP (PREV_BLKP h bp)) + GET_SIZE h (FTRP h (NEXT_BLKP h bp))) % 2 ^ 32
    let h1 := PUT h (HDRP (PREV_BLKP h bp)) (PACK size2 0)
    let h2 := PUT h1 (FTRP h1 (NEXT_BLKP h1 bp)) (PACK size2 0)
    (PREV_BLKP h2 bp, h2)

/-- The first half of mm_free: mark the block's header and footer free at its
current size (source lines 198-200); the state handed to `coalesce`. -/
def freeMarked (h : Heap) (bp : Nat) : Heap :=
  let size := GET_SIZE h (HDRP bp)
  let h1 := PUT h (HDRP bp) (PACK size 0)
  PUT h1 (FTRP h1 bp) (PACK size 0)

/-- mm_free from the source. -/
def mm_free (h : Heap) (bp : Nat) : Heap :=
  (coalesce (freeMarked h bp) bp).2

/-- find_fit's loop, fuel-indexed.  The fuel used by `find_fit` is large
enough that it is never exhausted: every iteration either stops or advances
`bp` by at least 8 bytes, and beyond the written region headers read 0. -/
def find_fit_loop (h : Heap) (adjsize : Nat) : Nat → Nat → Option Nat
  | 0, _ => none
  | fuel + 1, bp =>
    if GET_SIZE h (HDRP bp) = 0 then none
    else if GET_ALLOC h (HDRP bp) = 0 ∧ adjsize ≤ GET_SIZE h (HDRP bp) then some bp
    else find_fit_loop h adjsize fuel (NEXT_BLKP h bp)

/-- find_fit from the source: linear first-fit scan from `heap_listp`. -/
def find_fit (h : Heap) (adjsize : Nat) : Option Nat :=
  find_fit_loop h adjsize (h.limit + 2) h.heap_listp

/-- extend_heap from the source. -/
def extend_heap (h : Heap) (words : Nat) : Option Nat × Heap :=
  let size := (if words % 2 = 1 then (words + 1) * 4 else words * 4) % 2 ^ 32
  match mem_sbrk h size with
  | (none, h1) => (none, h1)
  | (some bp, h1) =>
    let h2 := PUT h1 (HDRP bp) (PACK size 0)
    let h3 := PUT h2 (FTRP h2 bp) (PACK size 0)
    let h4 := PUT h3 (HDRP (NEXT_BLKP h3 bp)) (PACK 0 1)
    let r := coalesce h4 bp
    (some r.1, r.2)

/-- Wrapping `size_t` subtraction, for the source's `chunksize - adjsize`. -/
def subST (x y : Nat) : Nat := (x + 2 ^ 32 - y % 2 ^ 32) % 2 ^ 32

/-- place from the source. -/
def place (h : Heap) (bp adjsize : Nat) : Heap :=
  let chunksize := GET_SIZE h (HDRP bp)
  if 16 ≤ subST chunksize adjsize then
    let h1 := PUT h (HDRP bp) (PACK adjsize 1)
    let h2 := PUT h1 (FTRP h1 bp) (PACK adjsize 1)
    let bp2 := NEXT_BLKP h2 bp
    let h3 := PUT h2 (HDRP bp2) (PACK (subST chunksize adjsize) 0)
    PUT h3 (FTRP h3 bp2) (PACK (subST chunksize adjsize) 0)
  else
    let h1 := PUT h (HDRP bp) (PACK chunksize 1)
    PUT h1 (FTRP h1 bp) (PACK chunksize 1)

/-- Reinterpret a `size_t` value as a 32-bit signed `int`, for the source's
`MAX(int, int)` on `extendsize`. -/
def toInt32 (n : Nat) : Int :=
  if n % 2 ^ 32 < 2 ^ 31 then (n % 2 ^ 32 : Int) else (n % 2 ^ 32 : Int) - 2 ^ 32

/-- Convert a signed `int` value back to `size_t`. -/
def toSizeT (z : Int) : Nat := (z % 2 ^ 32).toNat

/-- MAX from the source (on `int`). -/
def MAX (x y : Int) : Int := if x > y then x else y

/-- The adjusted block size computed by mm_malloc (source lines 248-251),
with `size_t` arithmetic wrapping at 2^32. -/
def adjustSize (size : Nat) : Nat :=
  if size ≤ 8 then 8 + 8
  else (8 * (((size + 8 + (8 - 1)) % 2 ^ 32) / 8)) % 2 ^ 32

/-- mm_malloc from the source.  Returns the payload pointer (`none` = NULL)
and the resulting heap; failure paths leave the heap unchanged. -/
def mm_malloc (h : Heap) (size : Nat) : Option Nat × Heap :=
  if size ≤ 0 then (none, h)
  else
    let adjsize := adjustSize size
    match find_fit h adjsize with
    | some bp => (some bp, place h bp adjsize)
    | none =>
      let extendsize := toSizeT (MAX (toInt32 adjsize) (toInt32 4096))
      match extend_heap h (extendsize / 4) with
      | (none, h1) => (none, h1)
      | (some bp, h1) => (some bp, place h1 bp adjsize)

/-- Byte-by-byte memcpy (the standard-library call in mm_realloc); the source
only uses it on non-overlapping regions, where the forward order is the
standard semantics. -/
def memcpy (h : Heap) (dst src n : Nat) : Heap :=
  match n with
  | 0 => h
  | n + 1 => memcpy (putB h dst (h.mem src)) (dst + 1) (src + 1) n

/-- Result of mm_realloc: either a new payload pointer with the resulting
heap, or `terminated` for the source's `exit(1)` when the internal
allocation fails. -/
inductive ReallocResult where
  | ok (ptr : Nat) (h : Heap) : ReallocResult
  | terminated : ReallocResult

/-- mm_realloc from the source. -/
def mm_realloc (h : Heap) (ptr size : Nat) : ReallocResult :=
  match mm_malloc h size with
  | (none, _) => .terminated
  | (some newp, h1) =>
    let copySize := GET_SIZE h1 (HDRP ptr)
    let copySize2 := if size < copySize then size else copySize
    let h2 := memcpy h1 newp ptr copySize2
    let h3 := mm_free h2 ptr
    .ok newp h3

/-- mm_init from the source: alignment pad, prologue header/footer, epilogue
header, then one CHUNKSIZE extension. -/
def mm_init (h : Heap) : Option Heap :=
  match mem_sbrk h (4 * 4) with
  | (none, _) => none
  | (some base, h1) =>
    let h2 := PUT h1 base 0
    let h3 := PUT h2 (base + 4) (PACK 8 1)
    let h4 := PUT h3 (base + 8) (PACK 8 1)
    let h5 := PUT h4 (base + 4 + 8) (PACK 0 1)
    let h6 := { h5 with heap_listp := base + 8 }
    match extend_heap h6 (4096 / 4) with
    | (none, _) => none
    | (some _, h7) => some h7

/-- A pristine heap: zero memory, break at 8 (so no block pointer is NULL
and payloads are 8-aligned), a given capacity. -/
def mkHeap (limit : Nat) : Heap := ⟨fun _ => 0, 8, limit, 0⟩

/-- The heap produced by `mm_init` with capacity for the initial request and
one CHUNKSIZE chunk (8 + 16 + 4096 bytes). -/
def heap0 : Heap := (mm_init (mkHeap 4120)).getD (mkHeap 4120)

/-- The chain of blocks traversed by following `NEXT_BLKP` from `bp` until a
zero-size header, fuel-indexed like the loops that walk it. -/
def blockList (h : Heap) : Nat → Nat → List Nat
  | 0, _ => []
  | fuel + 1, bp =>
    if GET_SIZE h (HDRP bp) = 0 then []
    else bp :: blockList h fuel (NEXT_BLKP h bp)

/-- A block satisfies a request: free and large enough. -/
def isFit (h : Heap) (adjsize bp : Nat) : Bool :=
  decide (GET_ALLOC h (HDRP bp) = 0) && decide (adjsize ≤ GET_SIZE h (HDRP bp))

/-!
A concrete run of the public interface, used to exhibit the consequences of
the `size =+` slip in `coalesce`.  Four 16-byte blocks A, B, C, D are carved
out of the initial free block at payload addresses 24, 40, 56, 72; A and C
are freed (each with allocated neighbours), then B is freed, which triggers
the both-neighbours-free coalescing case on A, B, C.
-/

/-- After `allocate(8)`: block A at 24 (size 16, allocated). -/
def heap1 : Heap := (mm_malloc heap0 8).2

/-- After a second `allocate(8)`: block B at 40. -/
def heap2 : Heap := (mm_malloc heap1 8).2

/-- After a third `allocate(8)`: block C at 56. -/
def heap3 : Heap := (mm_malloc heap2 8).2

/-- After a fourth `allocate(8)`: block D at 72. -/
def heap4 : Heap := (mm_malloc heap3 8).2

/-- After `free(A)` (both neighbours allocated: no merge). -/
def heap5 : Heap := mm_free heap4 24

/-- After `free(C)` (both neighbours allocated: no merge). -/
def heap6 : Heap := mm_free heap5 56

/-- After `free(B)`: both neighbours free, the buggy fourth coalescing case
runs on A+B+C. -/
def heap7 : Heap := mm_free heap6 40

/-- The state handed to `coalesce` inside `free(B)`: B's header and footer
already marked free, neighbours A and C free. -/
def c1pre : Heap := freeMarked heap6 40

/-!
A second concrete run, used by C4's reallocation witness: a = allocate(8) at
24, b = allocate(8) at 40, c = allocate(100) at 56 (a 112-byte block), then
free(a).  Reallocating b afterwards makes the internal allocation carve the
new block at 168 out of the far free region, and the final free of b merges
it with the free previous neighbour a (the third coalescing case).
-/

/-- Packing a doubleword-aligned size with any flag is plain addition of the
flag's low bit. -/
theorem pack_eq_add (s a : Nat) (h8 : 8 ∣ s) : PACK s a = s + a % 2 := by
  obtain ⟨k, rfl⟩ := h8
  have h1 : a &&& 1 = a % 2 := Nat.and_one_is_mod a
  have h2 : a % 2 < 2 ^ 3 := by
    have := Nat.mod_lt a (y := 2) (by omega)
    omega
  have h3 := Nat.mul_add_lt_is_or (b := a % 2) (i := 3) h2 k
  unfold PACK
  rw [h1]
  have h4 : 8 * k = 2 ^ 3 * k := by norm_num
  rw [h4, ← h3]

/-- Helper: a doubleword-aligned 32-bit size survives the `~0x7` mask. -/
theorem land_mask_eight (k : Nat) (hk : k < 2 ^ 29) :
    (8 * k) &&& 0xFFFFFFF8 = 8 * k := by
  apply Nat.eq_of_testBit_eq
  intro i
  rw [Nat.testBit_and]
  have hM : (0xFFFFFFF8 : Nat) = (2 ^ 29 - 1) <<< 3 := by decide
  have h8k : 8 * k = k <<< 3 := by
    rw [Nat.shiftLeft_eq]; ring
  by_cases hb : (8 * k).testBit i
  · rw [hb]
    have h3i : 3 ≤ i ∧ k.testBit (i - 3) = true := by
      rw [h8k, Nat.testBit_shiftLeft] at hb
      constructor
      · by_contra hlt
        simp [decide_eq_true_eq] at hb
        omega
      · exact (Bool.and_eq_true _ _ |>.mp hb).2
    have hi32 : i < 32 := by
      have := Nat.testBit_implies_ge h3i.2
      by_contra hge
      have h29 : 29 ≤ i - 3 := by omega
      have : 2 ^ 29 ≤ 2 ^ (i - 3) := Nat.pow_le_pow_right (by omega) h29
      omega
    have : (0xFFFFFFF8 : Nat).testBit i = true := by
      rw [hM, Nat.testBit_shiftLeft, Nat.testBit_two_pow_sub_one]
      have : i - 3 < 29 := by omega
      simp [h3i.1, this]
    simp [this]
  · simp [hb, Bool.false_and]

/-- Decoding the size field of a packed word recovers an aligned 32-bit size. -/
theorem size_of_pack (s a : Nat) (h8 : 8 ∣ s) (hlt : s < 2 ^ 32) :
    size_of (PACK s a) = s := by
  obtain ⟨k, rfl⟩ := h8
  rw [pack_eq_add _ a ⟨k, rfl⟩]
  unfold size_of
  have hb : a % 2 < 2 ^ 3 := by
    have := Nat.mod_lt a (y := 2) (by omega)
    omega
  have hsplit : 8 * k + a % 2 = 2 ^ 3 * k + a % 2 := by norm_num
  rw [hsplit, Nat.mul_add_lt_is_or hb k]
  rw [Nat.and_distrib_right]
  have hk : k < 2 ^ 29 := by
    by_contra hge
    have : 2 ^ 29 ≤ k := by omega
    have : 8 * 2 ^ 29 ≤ 8 * k := by omega
    norm_num at this
    omega
  have h1 : (2 ^ 3 * k) &&& 0xFFFFFFF8 = 8 * k := by
    have := land_mask_eight k hk
    norm_num at this ⊢
    exact this
  have h2 : (a % 2) &&& 0xFFFFFFF8 = 0 := by
    rcases Nat.mod_two_eq_zero_or_one a with h | h <;> rw [h]
    · exact Nat.zero_and _
    · rw [Nat.one_and_eq_mod_two]
  rw [h1, h2, Nat.or_zero]

/-- Decoding the allocated field of a packed word recovers the flag's low bit. -/
theorem allocated_of_pack (s a : Nat) (h8 : 8 ∣ s) :
    allocated_of (PACK s a) = a % 2 := by
  obtain ⟨k, rfl⟩ := h8
  rw [pack_eq_add _ a ⟨k, rfl⟩]
  unfold allocated_of
  rw [Nat.and_one_is_mod]
  omega

/-- Packed words of 32-bit sizes fit in 32 bits. -/
theorem pack_lt (s a : Nat) (h8 : 8 ∣ s) (hlt : s < 2 ^ 32) :
    PACK s a < 2 ^ 32 := by
  rw [pack_eq_add s a h8]
  obtain ⟨k, rfl⟩ := h8
  have := Nat.mod_lt a (y := 2) (by omega)
  omega

/-- C10: the packed word round-trips: for an aligned 32-bit size `s` and any
flag `a`, `size_of (PACK s a) = s`, `allocated_of (PACK s a) = a % 2`, and
the two reserved bits (bits 1 and 2) of the packed word are zero. -/
theorem pack_roundtrip (s a : Nat) (h8 : 8 ∣ s) (hlt : s < 2 ^ 32) :
    size_of (PACK s a) = s ∧ allocated_of (PACK s a) = a % 2 ∧
    PACK s a / 2 % 2 = 0 ∧ PACK s a / 4 % 2 = 0 := by
  refine ⟨size_of_pack s a h8 hlt, allocated_of_pack s a h8, ?_, ?_⟩ <;>
    · rw [pack_eq_add s a h8]
      obtain ⟨k, rfl⟩ := h8
      omega

/-- Witness for `pack_roundtrip` at `s = 24`, `a = 3`. -/
theorem pack_roundtrip_witness :
    size_of (PACK 24 3) = 24 ∧ allocated_of (PACK 24 3) = 3 % 2 ∧
    PACK 24 3 / 2 % 2 = 0 ∧ PACK 24 3 / 4 % 2 = 0 :=
  pack_roundtrip 24 3 (by decide) (by decide)

/-!  Basic lemmas about the word accessors. -/

/-- Reading the byte just stored. -/
theorem putB_mem_eq (h : Heap) (a v : Nat) : (putB h a v).mem a = v % 256 := by
  simp [putB]

/-- Reading another byte. -/
theorem putB_mem_ne (h : Heap) (a v x : Nat) (hx : x ≠ a) :
    (putB h a v).mem x = h.mem x := by
  simp [putB, hx]

/-- A word store does not touch bytes outside its four addresses. -/
theorem PUT_mem_outside (h : Heap) (p v x : Nat) (hx : x < p ∨ p + 4 ≤ x) :
    (PUT h p v).mem x = h.mem x := by
  unfold PUT
  rw [putB_mem_ne _ _ _ _ (by omega), putB_mem_ne _ _ _ _ (by omega),
    putB_mem_ne _ _ _ _ (by omega), putB_mem_ne _ _ _ _ (by omega)]

/-- Reading the word just stored gives the value truncated to 32 bits. -/
theorem get_put (h : Heap) (p v : Nat) : GET (PUT h p v) p = v % 2 ^ 32 := by
  unfold GET PUT
  rw [putB_mem_ne _ _ _ _ (by omega), putB_mem_ne _ _ _ _ (by omega),
    putB_mem_ne _ _ _ _ (by omega), putB_mem_eq,
    putB_mem_ne _ _ _ _ (by omega), putB_mem_ne _ _ _ _ (by omega),
    putB_mem_eq,
    putB_mem_ne _ _ _ _ (by omega), putB_mem_eq, putB_mem_eq]
  omega

/-- Reading a word elsewhere than the word just stored. -/
theorem get_put_outside (h : Heap) (p v q : Nat) (hq : q + 4 ≤ p ∨ p + 4 ≤ q) :
    GET (PUT h p v) q = GET h q := by
  unfold GET
  rw [PUT_mem_outside _ _ _ _ (by omega), PUT_mem_outside _ _ _ _ (by omega),
    PUT_mem_outside _ _ _ _ (by omega), PUT_mem_outside _ _ _ _ (by omega)]

/-- Wrapping subtraction agrees with truncated subtraction when no wrap
occurs. -/
theorem subST_eq (x y : Nat) (hle : y ≤ x) (hx : x < 2 ^ 32) :
    subST x y = x - y := by
  unfold subST
  omega

/-- Reading a packed word just stored (the common case of every header and
footer write). -/
theorem get_put_pack (h : Heap) (p s a : Nat) (h8 : 8 ∣ s) (hs : s < 2 ^ 32) :
    GET (PUT h p (PACK s a)) p = PACK s a := by
  rw [get_put, Nat.mod_eq_of_lt (pack_lt s a h8 hs)]

/-!
C1's exhibit.  In `c1pre` the freed block at 40 has size 16, and both its
neighbours are free with sizes 16 (A, at 24) and 16 (C, at 56).  The claim
requires the merged block to have size 16 + 16 + 16 = 48; the source's
`size =+ ...` slip produces 16 + 16 = 32 instead, dropping the freed block's
own size.
-/

/-- C1: the both-neighbours-free case of the Coalescer.  On the reachable
state `c1pre` (prev, own and next sizes all 16, both neighbours free) the
code writes a merged header of size 32 = prev + next at the previous block's
header position, not the claimed prev + own + next = 48; so the claim fails
on the code (the spec itself flags this computation as the known defect of
the source). -/
theorem coalesce_case4_drops_own_size :
    GET_ALLOC c1pre (HDRP (PREV_BLKP c1pre 40)) = 0 ∧
    GET_ALLOC c1pre (HDRP (NEXT_BLKP c1pre 40)) = 0 ∧
    GET_SIZE c1pre (HDRP (PREV_BLKP c1pre 40)) = 16 ∧
    GET_SIZE c1pre (HDRP 40) = 16 ∧
    GET_SIZE c1pre (HDRP (NEXT_BLKP c1pre 40)) = 16 ∧
    (coalesce c1pre 40).1 = 24 ∧
    GET (coalesce c1pre 40).2 (HDRP 24) = PACK 32 0 ∧
    GET (coalesce c1pre 40).2 (HDRP 24) ≠ PACK (16 + 16 + 16) 0 := by
  decide

/-- C2: header/footer agreement after public operations.  `heap7` is reached
from `mm_init` by four `allocate` and three `free` calls, yet the block at
24 in the block chain has header word 32 and footer word 16: the invariant
is broken by the coalescing slip (the footer of the merged block is never
rewritten at the position its header claims). -/
theorem header_neq_footer_after_free :
    24 ∈ blockList heap7 20 heap7.heap_listp ∧
    GET heap7 (HDRP 24) = PACK 32 0 ∧
    GET heap7 (FTRP heap7 24) = PACK 16 0 ∧
    GET heap7 (HDRP 24) ≠ GET heap7 (FTRP heap7 24) := by
  decide

/-- C3: no-adjacent-free-blocks.  In `heap7`, reached purely by public
operations and ending with a `free`, the chain from the first block contains
the blocks at 24 and 56, physically adjacent (`NEXT_BLKP` of 24 is 56), and
both are free: the full-coalescing invariant is broken by the same slip. -/
theorem adjacent_free_blocks_after_free :
    24 ∈ blockList heap7 20 heap7.heap_listp ∧
    56 ∈ blockList heap7 20 heap7.heap_listp ∧
    NEXT_BLKP heap7 24 = 56 ∧
    GET_ALLOC heap7 (HDRP 24) = 0 ∧
    GET_ALLOC heap7 (HDRP 56) = 0 := by
  decide

/-- C5: for every positive request size representable in the signed input
(`0 < n < 2^31`), the adjusted block size computed by `mm_malloc` equals
`max(minimum block size, (n + overhead) rounded up to a multiple of 8)` with
overhead 8 and minimum block size 16. -/
theorem adjustSize_eq_max_roundup (n : Nat) (h0 : 0 < n) (h31 : n < 2 ^ 31) :
    adjustSize n = max 16 ((n + 8 + 7) / 8 * 8) := by
  unfold adjustSize
  split <;> omega

/-- Witness for `adjustSize_eq_max_roundup` at `n = 24`. -/
theorem adjustSize_eq_max_roundup_witness :
    0 < 24 ∧ 24 < 2 ^ 31 ∧ adjustSize 24 = max 16 ((24 + 8 + 7) / 8 * 8) :=
  ⟨by decide, by decide, adjustSize_eq_max_roundup 24 (by decide) (by decide)⟩

/-- C8's counterexample: a negative signed request does not fail.  The signed
size -1 converts to the `size_t` value 2^32 - 1, slips past the source's
`size <= 0` test (false on an unsigned type for any nonzero value), the
adjusted-size computation wraps to 8, and on the freshly initialised heap the
call succeeds, returning payload 24 and carving an 8-byte allocated block
(header word changes from 4096 to PACK 8 1): the claim's "returns a failure
signal and leaves the heap state unchanged" fails for negative inputs. -/
theorem malloc_negative_size_succeeds :
    (-1 : Int) ≤ 0 ∧
    toSizeT (-1) = 2 ^ 32 - 1 ∧
    adjustSize (toSizeT (-1)) = 8 ∧
    (mm_malloc heap0 (toSizeT (-1))).1 = some 24 ∧
    GET heap0 (HDRP 24) = 4096 ∧
    GET (mm_malloc heap0 (toSizeT (-1))).2 (HDRP 24) = PACK 8 1 := by
  refine ⟨by decide, by decide, by decide, ?_, by decide, ?_⟩ <;> decide

/-- C8 amended: only the request size 0 (the sole `size_t` value satisfying
the source's `size <= 0` test) makes `mm_malloc` return the failure signal
with the heap left unchanged. -/
theorem mm_malloc_zero (h : Heap) : mm_malloc h 0 = (none, h) := rfl

/-- C9: whenever mm_realloc's internal allocation fails, the operation
terminates the process (the source prints and calls `exit(1)`); no failure
result is ever returned to the caller. -/
theorem mm_realloc_terminates_on_malloc_failure (h : Heap) (ptr size : Nat)
    (hfail : (mm_malloc h size).1 = none) :
    mm_realloc h ptr size = .terminated := by
  unfold mm_realloc
  rcases e : mm_malloc h size with ⟨o, h1⟩
  rw [e] at hfail
  simp only at hfail
  subst hfail
  rfl

/-- Witness for `mm_realloc_terminates_on_malloc_failure`: on the freshly
initialised heap a request of 8192 bytes exceeds both the free block and the
remaining growth capacity, so the internal allocation fails and reallocate
terminates. -/
theorem mm_realloc_terminates_witness :
    (mm_malloc heap0 8192).1 = none ∧ mm_realloc heap0 24 8192 = .terminated :=
  ⟨by decide, mm_realloc_terminates_on_malloc_failure heap0 24 8192 (by decide)⟩

/-- Reading the size field of a header just written. -/
theorem GET_SIZE_put_pack (h : Heap) (p s al : Nat) (h8 : 8 ∣ s) (hs : s < 2 ^ 32) :
    GET_SIZE (PUT h p (PACK s al)) p = s := by
  unfold GET_SIZE
  rw [get_put_pack _ _ _ _ h8 hs, size_of_pack _ _ h8 hs]

/-- A word store elsewhere does not change a size field. -/
theorem GET_SIZE_put_outside (h : Heap) (p v q : Nat) (hq : q + 4 ≤ p ∨ p + 4 ≤ q) :
    GET_SIZE (PUT h p v) q = GET_SIZE h q := by
  unfold GET_SIZE
  rw [get_put_outside _ _ _ _ hq]

/-- A word store elsewhere does not change an allocated field. -/
theorem GET_ALLOC_put_outside (h : Heap) (p v q : Nat) (hq : q + 4 ≤ p ∨ p + 4 ≤ q) :
    GET_ALLOC (PUT h p v) q = GET_ALLOC h q := by
  unfold GET_ALLOC
  rw [get_put_outside _ _ _ _ hq]

/-- C6: the Placer splits exactly when the leftover is at least the minimum
block size.  For a free block of (aligned, 32-bit) size `c` at `bp` and an
aligned adjusted request `a ≤ c` with `a ≥ 16`: when `c - a ≥ 16`, `place`
writes an allocated header/footer of size `a` at the block's start followed
immediately by a free header/footer of size `c - a`; when `c - a < 16` it
marks the whole block allocated at size `c` with no remainder. -/
theorem place_splits_iff (h : Heap) (bp a c : Nat)
    (hc : GET_SIZE h (HDRP bp) = c)
    (h8a : 8 ∣ a) (h8c : 8 ∣ c) (ha : 16 ≤ a) (hac : a ≤ c) (hc32 : c < 2 ^ 32)
    (hbp : 8 ≤ bp) :
    (16 ≤ c - a →
      GET (place h bp a) (bp - 4) = PACK a 1 ∧
      GET (place h bp a) (bp + a - 8) = PACK a 1 ∧
      GET (place h bp a) (bp + a - 4) = PACK (c - a) 0 ∧
      GET (place h bp a) (bp + c - 8) = PACK (c - a) 0) ∧
    (c - a < 16 →
      GET (place h bp a) (bp - 4) = PACK c 1 ∧
      GET (place h bp a) (bp + c - 8) = PACK c 1) := by
  have ha32 : a < 2 ^ 32 := by omega
  have h8ca : 8 ∣ (c - a) := Nat.dvd_sub' h8c h8a
  have hca32 : c - a < 2 ^ 32 := by omega
  have hsub : subST c a = c - a := subST_eq c a hac hc32
  simp only [place, HDRP] at *
  rw [hc, hsub]
  constructor
  · intro hge
    rw [if_pos hge]
    have e1 : FTRP (PUT h (bp - 4) (PACK a 1)) bp = bp + a - 8 := by
      unfold FTRP HDRP
      rw [GET_SIZE_put_pack _ _ _ _ h8a ha32]
    rw [e1]
    have e2 : NEXT_BLKP (PUT (PUT h (bp - 4) (PACK a 1)) (bp + a - 8) (PACK a 1)) bp
        = bp + a := by
      unfold NEXT_BLKP
      rw [GET_SIZE_put_outside _ _ _ _ (by omega), GET_SIZE_put_pack _ _ _ _ h8a ha32]
    rw [e2]
    have e3 : FTRP (PUT (PUT (PUT h (bp - 4) (PACK a 1)) (bp + a - 8) (PACK a 1))
        (bp + a - 4) (PACK (c - a) 0)) (bp + a) = bp + c - 8 := by
      unfold FTRP HDRP
      rw [GET_SIZE_put_pack _ _ _ _ h8ca hca32]
      omega
    rw [e3]
    refine ⟨?_, ?_, ?_, ?_⟩
    · rw [get_put_outside _ _ _ _ (by omega), get_put_outside _ _ _ _ (by omega),
        get_put_outside _ _ _ _ (by omega), get_put_pack _ _ _ _ h8a ha32]
    · rw [get_put_outside _ _ _ _ (by omega), get_put_outside _ _ _ _ (by omega),
        get_put_pack _ _ _ _ h8a ha32]
    · rw [get_put_outside _ _ _ _ (by omega), get_put_pack _ _ _ _ h8ca hca32]
    · rw [get_put_pack _ _ _ _ h8ca hca32]
  · intro hlt
    rw [if_neg (by omega)]
    have e1 : FTRP (PUT h (bp - 4) (PACK c 1)) bp = bp + c - 8 := by
      unfold FTRP HDRP
      rw [GET_SIZE_put_pack _ _ _ _ h8c hc32]
    rw [e1]
    constructor
    · rw [get_put_outside _ _ _ _ (by omega), get_put_pack _ _ _ _ h8c hc32]
    · rw [get_put_pack _ _ _ _ h8c hc32]

/-- Witness for `place_splits_iff`: carving 16 bytes out of the free
4096-byte block of the freshly initialised heap splits it. -/
theorem place_splits_iff_witness :
    GET_SIZE heap0 (HDRP 24) = 4096 ∧
    (16 ≤ 4096 - 16 →
      GET (place heap0 24 16) (24 - 4) = PACK 16 1 ∧
      GET (place heap0 24 16) (24 + 16 - 8) = PACK 16 1 ∧
      GET (place heap0 24 16) (24 + 16 - 4) = PACK (4096 - 16) 0 ∧
      GET (place heap0 24 16) (24 + 4096 - 8) = PACK (4096 - 16) 0) ∧
    (4096 - 16 < 16 →
      GET (place heap0 24 16) (24 - 4) = PACK 4096 1 ∧
      GET (place heap0 24 16) (24 + 4096 - 8) = PACK 4096 1) :=
  ⟨by decide, place_splits_iff heap0 24 16 4096 (by decide) (by decide) (by decide)
    (by decide) (by decide) (by decide) (by decide)⟩

/-- The scanning loop of find_fit returns exactly the first fitting block of
the traversed chain. -/
theorem find_fit_loop_eq_find (h : Heap) (a : Nat) :
    ∀ fuel bp, find_fit_loop h a fuel bp = (blockList h fuel bp).find? (isFit h a) := by
  intro fuel
  induction fuel with
  | zero => intro bp; rfl
  | succ n ih =>
    intro bp
    rw [find_fit_loop, blockList]
    by_cases h0 : GET_SIZE h (HDRP bp) = 0
    · simp [h0]
    · rw [if_neg h0, if_neg h0]
      rw [List.find?_cons]
      by_cases hfit : GET_ALLOC h (HDRP bp) = 0 ∧ a ≤ GET_SIZE h (HDRP bp)
      · rw [if_pos hfit]
        have : isFit h a bp = true := by
          unfold isFit
          simp [hfit.1, hfit.2]
        rw [this]
      · rw [if_neg hfit]
        have : isFit h a bp = false := by
          unfold isFit
          rcases Decidable.not_and_iff_or_not.mp hfit with hl | hr
          · simp [hl]
          · simp [hr]
        rw [this, ih]

/-- C7: on a heap whose scan origin `heap_listp` carries the prologue shape
(size 8, allocated), `find_fit` equals the first-match search over the block
chain that starts at the first real block (`NEXT_BLKP` of the prologue) and
ends at the first zero-size header (the epilogue): it returns the first
block that is both free and large enough, and returns the no-fit signal
`none` exactly when no block of the chain fits. -/
theorem find_fit_first_fit (h : Heap) (a : Nat)
    (hsz : GET_SIZE h (HDRP h.heap_listp) = 8)
    (hal : GET_ALLOC h (HDRP h.heap_listp) = 1) :
    find_fit h a = (blockList h (h.limit + 1) (NEXT_BLKP h h.heap_listp)).find? (isFit h a) ∧
    (find_fit h a = none ↔
      ∀ bp ∈ blockList h (h.limit + 1) (NEXT_BLKP h h.heap_listp), ¬(isFit h a bp = true)) := by
  have hstep : find_fit h a =
      (blockList h (h.limit + 1) (NEXT_BLKP h h.heap_listp)).find? (isFit h a) := by
    unfold find_fit
    have h2 : h.limit + 2 = (h.limit + 1) + 1 := rfl
    rw [h2, find_fit_loop, if_neg (by omega), if_neg (by rw [hal]; simp),
      find_fit_loop_eq_find]
  refine ⟨hstep, ?_⟩
  rw [hstep, List.find?_eq_none]

/-- Witness for `find_fit_first_fit` on the freshly initialised heap, whose
prologue sits at `heap_listp = 16`. -/
theorem find_fit_first_fit_witness :
    (GET_SIZE heap0 (HDRP heap0.heap_listp) = 8 ∧
      GET_ALLOC heap0 (HDRP heap0.heap_listp) = 1) ∧
    (find_fit heap0 16 =
      (blockList heap0 (heap0.limit + 1) (NEXT_BLKP heap0 heap0.heap_listp)).find? (isFit heap0 16) ∧
    (find_fit heap0 16 = none ↔
      ∀ bp ∈ blockList heap0 (heap0.limit + 1) (NEXT_BLKP heap0 heap0.heap_listp),
        ¬(isFit heap0 16 bp = true))) :=
  ⟨⟨by decide, by decide⟩, find_fit_first_fit heap0 16 (by decide) (by decide)⟩

end MallocLab
